import Mathlib

/-!
Shallow embedding of the two MCP servers of this repository
(`servers/maps_geo_server.py` and `servers/tile_catalog_server.py`) and
proofs about the claims of the specification.

Conventions of the embedding:

* Python dictionaries coming from upstream JSON are modelled as structures
  whose fields are `Option`-valued: `none` models an absent key
  (`dict.get` returning `None` / raising `KeyError`).
* `float(...)` parsing of an upstream string is abstracted by one more
  `Option` layer: in `NominatimItem` a coordinate field is
  `Option (Option ℚ)` where the outer `none` models an absent key
  (`KeyError`) and `some none` models a present but unparsable value
  (`ValueError`).
* Numeric values carried through the normalisation code are modelled as
  rationals; the tile-index formula is modelled over the reals.
* A Python function that can raise is modelled with `Except String`;
  a total Lean function models a Python function that cannot raise on the
  modelled inputs.
* The upstream HTTP response is passed to each tool as an explicit
  argument (the tools are pure in everything except that one call).
-/

/-! ### maps_geo_server: geocodeAddress -/

/-- Entry of the upstream Nominatim `/search` JSON array, as consumed by
`geocodeAddress`.  `lat`/`lon` are `Option (Option ℚ)`: `none` = key absent,
`some none` = present but not parsable as a float. -/
structure NominatimItem where
  lat : Option (Option ℚ)
  lon : Option (Option ℚ)
  display_name : Option String
  type_ : Option String
  class_ : Option String

/-- Normalised geocoding record appended to `results` by `geocodeAddress`. -/
structure GeoEntry where
  displayName : Option String
  lat : ℚ
  lon : ℚ
  type_ : Option String
  class_ : Option String
deriving DecidableEq

/-- Models the `try:` block of the loop body of `geocodeAddress`:
`lat = float(item["lat"]); lon = float(item["lon"])`, where `none` is the
caught `(KeyError, ValueError)` path (`continue`). -/
def parseLatLon (item : NominatimItem) : Option (ℚ × ℚ) := do
  let la ← item.lat
  let la ← la
  let lo ← item.lon
  let lo ← lo
  pure (la, lo)

/-- The normalised record built from a successfully parsed item. -/
def mkGeoEntry (item : NominatimItem) (p : ℚ × ℚ) : GeoEntry :=
  ⟨item.display_name, p.1, p.2, item.type_, item.class_⟩

/-- The `for item in raw_results:` loop of `geocodeAddress`, with the
`results` accumulator made explicit (`results.append(...)` keeps order). -/
def geocodeLoop : List NominatimItem → List GeoEntry → List GeoEntry
  | [], acc => acc
  | item :: rest, acc =>
    match parseLatLon item with
    | none => geocodeLoop rest acc
    | some p => geocodeLoop rest (acc ++ [mkGeoEntry item p])

/-- Payload returned by `geocodeAddress` (the `json.dumps` serialisation is
not modelled; the payload structure is). -/
structure GeocodePayload where
  query : String
  results : List GeoEntry

/-- Embedding of `geocodeAddress`, given the decoded upstream response
`raw` of the Nominatim `/search` call. -/
def geocodeAddress (query : String) (raw : List NominatimItem) : GeocodePayload :=
  ⟨query, geocodeLoop raw []⟩

/-! ### maps_geo_server: searchPois -/

/-- The `tags` sub-dictionary of an Overpass element. -/
structure OverpassTags where
  name : Option String
  amenity : Option String

/-- Element of the upstream Overpass `elements` array. -/
structure OverpassElement where
  type_ : Option String
  tags : Option OverpassTags
  lat : Option ℚ
  lon : Option ℚ

/-- Normalised POI record. -/
structure PoiEntry where
  name : Option String
  amenity : Option String
  lat : Option ℚ
  lon : Option ℚ

/-- Payload returned by `searchPois`.  In the code the success branch emits
no `error` key at all; that absent key is modelled by `error = none`. -/
structure SearchPoisPayload where
  centerLat : ℚ
  centerLon : ℚ
  keyword : String
  radiusM : ℤ
  results : List PoiEntry
  error : Option String

/-- Embedding of `searchPois`.  `upstream` models the
`http_post_form_json` call: `Except.error e` is any exception raised during
the call (with `e` the text of the exception), `Except.ok none` a decoded
response that is not a dict, and `Except.ok (some elements)` the decoded
`elements` list.  The function is total: the `try/except` of the source is
the `Except.error` branch, so no failure propagates. -/
def searchPois (keyword : String) (lat lon : ℚ) (radiusM : ℤ) (maxResults : ℕ)
    (upstream : Except String (Option (List OverpassElement))) : SearchPoisPayload :=
  match upstream with
  | .error e =>
    ⟨lat, lon, keyword, radiusM, [], some ("Overpass request failed: " ++ e)⟩
  | .ok raw =>
    let elements := raw.getD []
    let pois := (elements.take maxResults).filterMap fun el =>
      if el.type_ ≠ some "node" then none
      else
        let tags := el.tags.getD ⟨none, none⟩
        some (⟨tags.name, tags.amenity, el.lat, el.lon⟩ : PoiEntry)
    ⟨lat, lon, keyword, radiusM, pois, none⟩

/-! ### maps_geo_server: basicRoute -/

/-- The `maneuver` sub-dictionary of an OSRM step. -/
structure OsrmManeuver where
  type_ : Option String
  modifier : Option String

/-- Step of an OSRM leg. -/
structure OsrmStep where
  maneuver : Option OsrmManeuver
  name : Option String

/-- Leg of an OSRM route. -/
structure OsrmLeg where
  steps : Option (List OsrmStep)

/-- Route object of the OSRM response. -/
structure OsrmRoute where
  distance : Option ℚ
  duration : Option ℚ
  legs : Option (List OsrmLeg)

/-- Summary string built for one step of `basicRoute`:
`pieces = [p for p in [step_type, modifier, instruction] if p]` followed by
`" - ".join(pieces)`.  The Python truthiness test `if p` drops both `None`
and the empty string. -/
def stepSummary (step : OsrmStep) : String :=
  let maneuver := step.maneuver.getD ⟨none, none⟩
  let instruction := step.name.getD ""
  let pieces :=
    ([maneuver.type_, maneuver.modifier, some instruction].filterMap id).filter
      (fun p => p ≠ "")
  String.intercalate " - " pieces

/-- Result of `basicRoute`: either the explicit no-route payload or the
normal payload. -/
inductive RouteResult where
  | noRoute (error : String) (startLat startLon endLat endLon : ℚ)
  | ok (startLat startLon endLat endLon : ℚ) (profile : String)
      (distanceKm durationMin : ℚ) (steps : List String)
deriving DecidableEq

/-- The `distanceKm` field of the payload, when present. -/
def RouteResult.distanceKm : RouteResult → Option ℚ
  | .noRoute .. => none
  | .ok _ _ _ _ _ d _ _ => some d

/-- The `durationMin` field of the payload, when present. -/
def RouteResult.durationMin : RouteResult → Option ℚ
  | .noRoute .. => none
  | .ok _ _ _ _ _ _ d _ => some d

/-- Embedding of `basicRoute`, given the decoded upstream OSRM response:
`upstream = none` models a response that is not a dict or has no `routes`
key (both yield `routes = []` via `data.get("routes", []) if isinstance
(data, dict) else []`), `some rs` models the decoded `routes` list. -/
def basicRoute (startLat startLon endLat endLon : ℚ) (profile : String)
    (upstream : Option (List OsrmRoute)) : RouteResult :=
  let routes := upstream.getD []
  match routes with
  | [] => .noRoute "No route found" startLat startLon endLat endLon
  | route :: _ =>
    let distance_km := route.distance.getD 0 / 1000
    let duration_min := route.duration.getD 0 / 60
    let steps := (route.legs.getD []).flatMap
      (fun leg => (leg.steps.getD []).map stepSummary)
    .ok startLat startLon endLat endLon profile distance_km duration_min steps

/-! ### Theorems about geocodeAddress (claim C3) -/

/-- The loop of `geocodeAddress` is the filter-map of its body over the
upstream list, whatever is already in the accumulator. -/
theorem geocodeLoop_eq_filterMap (l : List NominatimItem) (acc : List GeoEntry) :
    geocodeLoop l acc = acc ++ l.filterMap (fun item => (parseLatLon item).map (mkGeoEntry item)) := by
  induction l generalizing acc with
  | nil => simp [geocodeLoop]
  | cons item rest ih =>
    cases h : parseLatLon item with
    | none => simp [geocodeLoop, h, ih]
    | some p => simp [geocodeLoop, h, ih]

/-- An item survives the `try/except` of `geocodeAddress` exactly when both
its `lat` and `lon` keys are present and parsable. -/
theorem parseLatLon_eq_none_iff (item : NominatimItem) :
    parseLatLon item = none ↔ item.lat.join = none ∨ item.lon.join = none := by
  obtain ⟨la, lo, d, t, c⟩ := item
  cases la with
  | none => simp [parseLatLon]
  | some la' =>
    cases la' with
    | none => simp [parseLatLon, Option.join]
    | some q =>
      cases lo with
      | none => simp [parseLatLon, Option.join]
      | some lo' =>
        cases lo' with
        | none => simp [parseLatLon, Option.join]
        | some q' => simp [parseLatLon, Option.join]

/-- C3: entries of the upstream list whose `lat` or `lon` is absent or
unparsable are silently dropped (the operation is total, so nothing is
raised to the caller), and every remaining entry appears, in order, as the
normalised `{displayName, lat, lon, type, class}` record. -/
theorem geocodeAddress_drops_unparsable (query : String) (raw : List NominatimItem) :
    (geocodeAddress query raw).results =
      raw.filterMap (fun item => (parseLatLon item).map (mkGeoEntry item)) ∧
    ∀ item : NominatimItem,
      ((parseLatLon item).map (mkGeoEntry item) = none ↔
        item.lat.join = none ∨ item.lon.join = none) := by
  constructor
  · simpa [geocodeAddress] using geocodeLoop_eq_filterMap raw []
  · intro item
    rw [Option.map_eq_none']
    exact parseLatLon_eq_none_iff item

/-! ### Theorems about searchPois (claim C4) -/

/-- C4: whatever the inputs, when the upstream Overpass call raises,
`searchPois` returns the success-shaped payload with empty `results` and a
non-null `error` string that describes the failure; being total, it never
propagates the exception. -/
theorem searchPois_degrades_on_upstream_error (keyword : String) (lat lon : ℚ)
    (radiusM : ℤ) (maxResults : ℕ) (e : String) :
    (searchPois keyword lat lon radiusM maxResults (.error e)).results = [] ∧
    (searchPois keyword lat lon radiusM maxResults (.error e)).error =
      some ("Overpass request failed: " ++ e) := by
  exact ⟨rfl, rfl⟩

/-! ### Theorems about basicRoute (claims C7, C10) -/

/-- C7: an upstream response whose `routes` list is empty makes
`basicRoute` return the explicit no-route payload, carrying the error text
`"No route found"` and the start and end coordinates; the function is
total, so nothing is raised. -/
theorem basicRoute_no_route (startLat startLon endLat endLon : ℚ) (profile : String) :
    basicRoute startLat startLon endLat endLon profile (some []) =
      .noRoute "No route found" startLat startLon endLat endLon := by
  rfl

/-- C10: when the first route lacks the `distance` key, `distanceKm` of the
returned payload is `0` (the default `0` divided by `1000`), and likewise a
missing `duration` yields `durationMin = 0`; no failure occurs. -/
theorem basicRoute_missing_distance_duration (startLat startLon endLat endLon : ℚ)
    (profile : String) (route : OsrmRoute) (rest : List OsrmRoute) :
    (route.distance = none →
      (basicRoute startLat startLon endLat endLon profile (some (route :: rest))).distanceKm =
        some 0) ∧
    (route.duration = none →
      (basicRoute startLat startLon endLat endLon profile (some (route :: rest))).durationMin =
        some 0) := by
  constructor
  · intro h
    simp [basicRoute, RouteResult.distanceKm, h]
  · intro h
    simp [basicRoute, RouteResult.durationMin, h]

/-- Witness for C10 at a concrete route with both keys absent. -/
theorem basicRoute_missing_distance_duration_witness :
    (basicRoute 1 2 3 4 "driving" (some [⟨none, none, none⟩])).distanceKm = some 0 ∧
    (basicRoute 1 2 3 4 "driving" (some [⟨none, none, none⟩])).durationMin = some 0 :=
  ⟨(basicRoute_missing_distance_duration 1 2 3 4 "driving" ⟨none, none, none⟩ []).1 rfl,
   (basicRoute_missing_distance_duration 1 2 3 4 "driving" ⟨none, none, none⟩ []).2 rfl⟩

/-! ### tile_catalog_server: provider catalog and URL templates

Python strings manipulated by the template engine are modelled as lists of
characters, so that `str.replace` can be given its exact left-to-right,
non-overlapping semantics by structural recursion. -/

/-- Python strings of the tile server, as character lists. -/
abbrev Str := List Char

/-- Entry of the `TILE_PROVIDERS` dictionary. -/
structure ProviderInfo where
  urlTemplate : Str
  subdomains : List Str
  attribution : Str
  description : Str
deriving DecidableEq

/-- The single provider descriptor of the catalog. -/
def osmMapnik : ProviderInfo :=
  ⟨"https://{s}.tile.openstreetmap.org/{z}/{x}/{y}.png".toList,
   ["a".toList, "b".toList, "c".toList],
   "© OpenStreetMap contributors".toList,
   "Standard OSM raster tiles (Mapnik style).".toList⟩

/-- The `TILE_PROVIDERS` dictionary (one entry). -/
def TILE_PROVIDERS : List (Str × ProviderInfo) :=
  [("OpenStreetMap.Mapnik".toList, osmMapnik)]

/-- Embedding of `get_provider_info`: returns the entry or raises
`ValueError("Unknown tile provider: %s" % provider)`, modelled as
`Except.error`. -/
def get_provider_info (provider : Str) : Except Str ProviderInfo :=
  match TILE_PROVIDERS.lookup provider with
  | none => .error ("Unknown tile provider: ".toList ++ provider)
  | some info => .ok info

/-- Left-to-right, non-overlapping replacement of every occurrence of
`pat` by `rep`, the semantics of Python `str.replace` for a non-empty
pattern (every pattern used by the server is one of the non-empty tokens
`{z}`, `{x}`, `{y}`, `{s}`). -/
def strReplace : Str → Str → Str → Str
  | [], _, _ => []
  | c :: rest, pat, rep =>
    if h : pat ≠ [] ∧ pat.isPrefixOf (c :: rest) = true then
      rep ++ strReplace ((c :: rest).drop pat.length) pat rep
    else
      c :: strReplace rest pat rep
termination_by s _ _ => s.length
decreasing_by
  · have hpos : 0 < pat.length := List.length_pos.mpr h.1
    simp only [List.length_drop, List.length_cons]
    omega
  · simp

/-- Python's substring test `tok in s`. -/
def containsSub (s tok : Str) : Bool :=
  match s with
  | [] => tok.isEmpty
  | _ :: rest => tok.isPrefixOf s || containsSub rest tok

/-- Embedding of `build_tile_url_from_template`.  The `z`, `x`, `y`
arguments stand for the strings `str(z)`, `str(x)`, `str(y)` of the
source; the `{s}` containment test is performed, as in the source, on the
url obtained after the `{z}`/`{x}`/`{y}` substitutions, and a missing
subdomain defaults to `"a"`. -/
def build_tile_url_from_template (template z x y : Str) (subdomain : Option Str) : Str :=
  let url := strReplace (strReplace (strReplace template ("{z}".toList) z) ("{x}".toList) x)
    ("{y}".toList) y
  if containsSub url ("{s}".toList) then
    strReplace url ("{s}".toList) (subdomain.getD ("a".toList))
  else url

/-- Python `str(n)` for an integer. -/
def intStr (n : ℤ) : Str := (toString n).toList

/-- Payload returned by `getProviderTileUrl`. -/
structure TilePayload where
  provider : Str
  z : ℤ
  x : ℤ
  y : ℤ
  url : Str
  attribution : Str
  description : Str
deriving DecidableEq

/-- Embedding of the `getProviderTileUrl` tool: an unknown provider is the
`ValueError` of `get_provider_info`, propagated (`Except.error`), otherwise
the payload with the resolved url. -/
def getProviderTileUrl (provider : Str) (z x y : ℤ) (subdomain : Option Str) :
    Except Str TilePayload :=
  match get_provider_info provider with
  | .error e => .error e
  | .ok info =>
    let url := build_tile_url_from_template info.urlTemplate (intStr z) (intStr x) (intStr y)
      subdomain
    .ok ⟨provider, z, x, y, url, info.attribution, info.description⟩

/-- MapLibre style document built by `getMapLibreStyle` (the fields of the
emitted JSON object, with the single raster source flattened:
`tiles` is the source's tile-url list, `center` is `[lon, lat]`). -/
structure MapLibreStyle where
  version : ℕ
  name : Str
  tiles : List Str
  tileSize : ℕ
  attribution : Str
  centerLon : ℚ
  centerLat : ℚ
  zoom : ℚ
deriving DecidableEq

/-- Embedding of the `getMapLibreStyle` tool: the tile URL keeps the
`{z}`/`{x}`/`{y}` placeholders (they are substituted by themselves) and the
subdomain is fixed to `"a"`. -/
def getMapLibreStyle (provider : Str) (centerLat centerLon : ℚ) (zoom : ℚ) :
    Except Str MapLibreStyle :=
  match get_provider_info provider with
  | .error e => .error e
  | .ok info =>
    let tile_url := build_tile_url_from_template info.urlTemplate ("{z}".toList) ("{x}".toList)
      ("{y}".toList) (some ("a".toList))
    .ok ⟨8, provider ++ (" basemap".toList), [tile_url], 256, info.attribution,
      centerLon, centerLat, zoom⟩

/-! ### Theorems about getProviderTileUrl (claim C8) -/

/-- C8: a provider name absent from the catalog makes `getProviderTileUrl`
fail hard with the `ValueError` of `get_provider_info`, naming the unknown
provider; no success-shaped payload is produced. -/
theorem getProviderTileUrl_unknown_provider (provider : Str) (z x y : ℤ)
    (subdomain : Option Str) (h : TILE_PROVIDERS.lookup provider = none) :
    getProviderTileUrl provider z x y subdomain =
      .error ("Unknown tile provider: ".toList ++ provider) := by
  simp [getProviderTileUrl, get_provider_info, h]

/-- Witness for C8 at the provider name `"DoesNotExist"` of the spec. -/
theorem getProviderTileUrl_unknown_provider_witness :
    getProviderTileUrl ("DoesNotExist".toList) 1 1 1 none =
      .error ("Unknown tile provider: ".toList ++ "DoesNotExist".toList) :=
  getProviderTileUrl_unknown_provider ("DoesNotExist".toList) 1 1 1 none (by decide)

/-! ### Lemmas about strReplace -/

theorem strReplace_nil (pat rep : Str) : strReplace [] pat rep = [] := by
  simp [strReplace]

theorem strReplace_cons_match {pat : Str} (c : Char) (rest rep : Str)
    (h1 : pat ≠ []) (h2 : pat.isPrefixOf (c :: rest) = true) :
    strReplace (c :: rest) pat rep =
      rep ++ strReplace ((c :: rest).drop pat.length) pat rep := by
  rw [strReplace, dif_pos ⟨h1, h2⟩]

theorem strReplace_cons_else {pat : Str} (c : Char) (rest rep : Str)
    (h : ¬ (pat ≠ [] ∧ pat.isPrefixOf (c :: rest) = true)) :
    strReplace (c :: rest) pat rep = c :: strReplace rest pat rep := by
  rw [strReplace, dif_neg h]

/-- A replacement walks unchanged over a block whose characters all differ
from the head of the pattern. -/
theorem strReplace_skip {p0 : Char} {pt : Str} (a b rep : Str)
    (ha : ∀ c ∈ a, c ≠ p0) :
    strReplace (a ++ b) (p0 :: pt) rep = a ++ strReplace b (p0 :: pt) rep := by
  induction a with
  | nil => simp
  | cons c a' ih =>
    have hnp : ¬ (p0 :: pt).isPrefixOf (c :: (a' ++ b)) = true := by
      rw [ List.isPrefixOf_iff_prefix, List.cons_prefix_cons]
      rintro ⟨h1, -⟩
      exact ha c (List.mem_cons_self c a') h1.symm
    rw [List.cons_append, strReplace_cons_else c (a' ++ b) rep (fun hh => hnp hh.2),
      ih (fun x hx => ha x (List.mem_cons_of_mem c hx))]
    rfl

/-- A replacement fires exactly at the start of an occurrence of the
pattern. -/
theorem strReplace_match (pat b rep : Str) (h : pat ≠ []) :
    strReplace (pat ++ b) pat rep = rep ++ strReplace b pat rep := by
  cases pat with
  | nil => exact absurd rfl h
  | cons p0 pt =>
    rw [List.cons_append,
      strReplace_cons_match p0 (pt ++ b) rep h
        (by rw [ List.isPrefixOf_iff_prefix, ← List.cons_append]
            exact List.prefix_append _ _)]
    congr 1
    rw [← List.cons_append, List.drop_left]

/-- A replacement whose pattern does not occur leaves the string alone. -/
theorem strReplace_of_no_occurrence {pat : Str} (s rep : Str)
    (h : ¬ pat <:+: s) : strReplace s pat rep = s := by
  induction s with
  | nil => simp [strReplace]
  | cons c rest ih =>
    have hnp : ¬ pat.isPrefixOf (c :: rest) = true := by
      rw [ List.isPrefixOf_iff_prefix]
      exact fun hh => h hh.isInfix
    rw [strReplace_cons_else c rest rep (fun hh => hnp hh.2),
      ih (fun hh => h (List.infix_cons_iff.mpr (Or.inr hh)))]

/-- Replacing a pattern by itself changes nothing. -/
theorem strReplace_self_pat (n : ℕ) :
    ∀ s pat : Str, s.length ≤ n → strReplace s pat pat = s := by
  induction n with
  | zero =>
    intro s pat hs
    have : s = [] := List.length_eq_zero.mp (Nat.le_zero.mp hs)
    subst this
    simp [strReplace]
  | succ n ih =>
    intro s pat hs
    cases s with
    | nil => simp [strReplace]
    | cons c rest =>
      by_cases hm : pat ≠ [] ∧ pat.isPrefixOf (c :: rest) = true
      · obtain ⟨t, ht⟩ := List.isPrefixOf_iff_prefix.mp hm.2
        rw [strReplace_cons_match c rest pat hm.1 hm.2, ← ht, List.drop_left]
        have hpos : 0 < pat.length := List.length_pos.mpr hm.1
        have hlen : t.length ≤ n := by
          have := congrArg List.length ht
          simp only [List.length_append, List.length_cons] at this
          simp only [List.length_cons] at hs
          omega
        rw [ih t pat hlen]
      · rw [strReplace_cons_else c rest pat hm]
        simp only [List.length_cons] at hs
        rw [ih rest pat (by omega)]

/-- An occurrence of `pat` cannot touch a block disjoint from its
characters: it must lie entirely to the right of it. -/
theorem infix_append_disjoint_left {pat : Str} (a b : Str)
    (ha : ∀ c ∈ a, c ∉ pat) (h : pat <:+: a ++ b) : pat <:+: b := by
  induction a with
  | nil => simpa using h
  | cons c a' ih =>
    rw [List.cons_append, List.infix_cons_iff] at h
    rcases h with h | h
    · cases pat with
      | nil => exact List.nil_infix
      | cons p0 pt =>
        rw [List.cons_prefix_cons] at h
        exact absurd (h.1 ▸ List.mem_cons_self p0 pt)
          (ha c (List.mem_cons_self c a'))
    · exact ih (fun x hx => ha x (List.mem_cons_of_mem c hx)) h

/-- A prefix of a replaced string that shares no character with the
replacement text is a prefix of the original string. -/
theorem prefix_strReplace {pat rep : Str} (hrep : rep ≠ []) (n : ℕ) :
    ∀ s pt : Str, s.length ≤ n → (∀ c ∈ pt, c ∉ rep) →
      pt <+: strReplace s pat rep → pt <+: s := by
  induction n with
  | zero =>
    intro s pt hs _ h
    have : s = [] := List.length_eq_zero.mp (Nat.le_zero.mp hs)
    subst this
    rw [strReplace_nil] at h
    exact h
  | succ n ih =>
    intro s pt hs hd h
    cases s with
    | nil =>
      rw [strReplace_nil] at h
      exact h
    | cons c rest =>
      by_cases hm : pat ≠ [] ∧ pat.isPrefixOf (c :: rest) = true
      · rw [strReplace_cons_match c rest rep hm.1 hm.2] at h
        cases pt with
        | nil => exact List.nil_prefix
        | cons t0 tt =>
          cases rep with
          | nil => exact absurd rfl hrep
          | cons r0 rt =>
            rw [List.cons_append, List.cons_prefix_cons] at h
            exact absurd (h.1 ▸ List.mem_cons_self r0 rt)
              (hd t0 (List.mem_cons_self t0 tt))
      · rw [strReplace_cons_else c rest rep hm] at h
        cases pt with
        | nil => exact List.nil_prefix
        | cons t0 tt =>
          rw [List.cons_prefix_cons] at h ⊢
          refine ⟨h.1, ?_⟩
          simp only [List.length_cons] at hs
          exact ih rest tt (by omega)
            (fun x hx => hd x (List.mem_cons_of_mem t0 hx)) h.2

/-- Replacement cannot create an occurrence of a token `tok` when the
replacement text is non-empty and shares no character with `tok`. -/
theorem strReplace_no_new_occurrence_aux {tok pat rep : Str} (htok : tok ≠ [])
    (hrep : rep ≠ []) (hd : ∀ c ∈ rep, c ∉ tok) (n : ℕ) :
    ∀ s : Str, s.length ≤ n → ¬ tok <:+: s → ¬ tok <:+: strReplace s pat rep := by
  induction n with
  | zero =>
    intro s hs h
    have : s = [] := List.length_eq_zero.mp (Nat.le_zero.mp hs)
    subst this
    rw [strReplace_nil]
    exact h
  | succ n ih =>
    intro s hs h
    cases s with
    | nil =>
      rw [strReplace_nil]
      exact h
    | cons c rest =>
      by_cases hm : pat ≠ [] ∧ pat.isPrefixOf (c :: rest) = true
      · rw [strReplace_cons_match c rest rep hm.1 hm.2]
        intro hinf
        have h2 : tok <:+: strReplace ((c :: rest).drop pat.length) pat rep :=
          infix_append_disjoint_left rep _ hd hinf
        have hpos : 0 < pat.length := List.length_pos.mpr hm.1
        have hlen : ((c :: rest).drop pat.length).length ≤ n := by
          simp only [List.length_drop, List.length_cons]
          simp only [List.length_cons] at hs
          omega
        have hno : ¬ tok <:+: (c :: rest).drop pat.length :=
          fun hh => h (hh.trans (List.drop_suffix _ _).isInfix)
        exact ih _ hlen hno h2
      · rw [strReplace_cons_else c rest rep hm]
        intro hinf
        rw [List.infix_cons_iff] at hinf
        rcases hinf with hpre | hinf
        · cases tok with
          | nil => exact htok rfl
          | cons t0 tt =>
            rw [List.cons_prefix_cons] at hpre
            obtain ⟨ht0, htt⟩ := hpre
            simp only [List.length_cons] at hs
            have htt' : tt <+: rest :=
              prefix_strReplace hrep n rest tt (by omega)
                (fun x hx hxr => hd x hxr (List.mem_cons_of_mem t0 hx)) htt
            exact h (List.infix_cons_iff.mpr
              (Or.inl (List.cons_prefix_cons.mpr ⟨ht0, htt'⟩)))
        · simp only [List.length_cons] at hs
          exact ih rest (by omega)
            (fun hh => h (List.infix_cons_iff.mpr (Or.inr hh))) hinf

/-- Wrapper of the previous lemma without the length fuel. -/
theorem strReplace_no_new_occurrence {tok pat rep : Str} (s : Str) (htok : tok ≠ [])
    (hrep : rep ≠ []) (hd : ∀ c ∈ rep, c ∉ tok) (h : ¬ tok <:+: s) :
    ¬ tok <:+: strReplace s pat rep :=
  strReplace_no_new_occurrence_aux htok hrep hd s.length s le_rfl h

/-- The Boolean substring test agrees with list infix. -/
theorem containsSub_iff (s tok : Str) : containsSub s tok = true ↔ tok <:+: s := by
  induction s with
  | nil =>
    simp [containsSub, List.isEmpty_iff]
  | cons c rest ih =>
    simp [containsSub, List.infix_cons_iff, ih, List.isPrefixOf_iff_prefix,
      Bool.or_eq_true]

/-! ### Theorems about build_tile_url_from_template (claim C9) -/

/-- C9, counterexample: the `{s}` containment test of the source runs on
the url obtained after the `{z}`/`{x}`/`{y}` substitutions, so a template
without `{s}` is not enough to make the subdomain irrelevant — a
substituted value can inject a `{s}` token.  Here the template `{x}`
contains no `{s}`, yet substituting the string `{s}` for `x` makes the
result depend on the subdomain. -/
theorem build_tile_url_subdomain_not_ignored :
    ¬ ("{s}".toList) <:+: ("{x}".toList) ∧
    build_tile_url_from_template ("{x}".toList) ("1".toList) ("{s}".toList)
        ("2".toList) (some ("b".toList)) ≠
      build_tile_url_from_template ("{x}".toList) ("1".toList) ("{s}".toList)
        ("2".toList) (some ("c".toList)) := by
  have ez : strReplace ("{x}".toList) ("{z}".toList) ("1".toList) = ("{x}".toList) :=
    strReplace_of_no_occurrence _ _ (by decide)
  have ex : strReplace ("{x}".toList) ("{x}".toList) ("{s}".toList) = ("{s}".toList) := by
    have h := strReplace_match ("{x}".toList) [] ("{s}".toList) (by decide)
    simpa [strReplace_nil] using h
  have ey : strReplace ("{s}".toList) ("{y}".toList) ("2".toList) = ("{s}".toList) :=
    strReplace_of_no_occurrence _ _ (by decide)
  have eb : strReplace ("{s}".toList) ("{s}".toList) ("b".toList) = ("b".toList) := by
    have h := strReplace_match ("{s}".toList) [] ("b".toList) (by decide)
    simpa [strReplace_nil] using h
  have ec : strReplace ("{s}".toList) ("{s}".toList) ("c".toList) = ("c".toList) := by
    have h := strReplace_match ("{s}".toList) [] ("c".toList) (by decide)
    simpa [strReplace_nil] using h
  refine ⟨by decide, ?_⟩
  simp only [build_tile_url_from_template, ez, ex, ey]
  rw [if_pos (by decide)]
  simp only [Option.getD_some, eb, ec]
  decide

/-- C9, amended: for a template without a `{s}` token and substituted
`z`, `x`, `y` strings that are non-empty and avoid the characters of
`{s}` (decimal index strings qualify), the resolved url is independent of
the supplied subdomain (including a missing one), and no error occurs
(the function is total). -/
theorem build_tile_url_no_s_ignores_subdomain (template z x y : Str)
    (hT : ¬ ("{s}".toList) <:+: template)
    (hz : z ≠ [] ∧ ∀ c ∈ z, c ∉ ("{s}".toList))
    (hx : x ≠ [] ∧ ∀ c ∈ x, c ∉ ("{s}".toList))
    (hy : y ≠ [] ∧ ∀ c ∈ y, c ∉ ("{s}".toList))
    (sd1 sd2 : Option Str) :
    build_tile_url_from_template template z x y sd1 =
      build_tile_url_from_template template z x y sd2 := by
  have h1 : ¬ ("{s}".toList) <:+: strReplace template ("{z}".toList) z :=
    strReplace_no_new_occurrence template (by decide) hz.1 hz.2 hT
  have h2 : ¬ ("{s}".toList) <:+:
      strReplace (strReplace template ("{z}".toList) z) ("{x}".toList) x :=
    strReplace_no_new_occurrence _ (by decide) hx.1 hx.2 h1
  have h3 : ¬ ("{s}".toList) <:+:
      strReplace (strReplace (strReplace template ("{z}".toList) z) ("{x}".toList) x)
        ("{y}".toList) y :=
    strReplace_no_new_occurrence _ (by decide) hy.1 hy.2 h2
  have hc : containsSub
      (strReplace (strReplace (strReplace template ("{z}".toList) z) ("{x}".toList) x)
        ("{y}".toList) y) ("{s}".toList) = false := by
    rw [← Bool.not_eq_true, containsSub_iff]
    exact h3
  simp only [build_tile_url_from_template, hc, Bool.false_eq_true, if_false]

/-- Witness for the amended C9 on the subdomain-free OSM url template with
a present and an absent subdomain. -/
theorem build_tile_url_no_s_ignores_subdomain_witness :
    build_tile_url_from_template ("https://tile.openstreetmap.org/{z}/{x}/{y}.png".toList)
        ("1".toList) ("2".toList) ("3".toList) (some ("b".toList)) =
      build_tile_url_from_template ("https://tile.openstreetmap.org/{z}/{x}/{y}.png".toList)
        ("1".toList) ("2".toList) ("3".toList) none :=
  build_tile_url_no_s_ignores_subdomain _ _ _ _ (by decide)
    ⟨by decide, by decide⟩ ⟨by decide, by decide⟩ ⟨by decide, by decide⟩
    (some ("b".toList)) none

/-! ### Further replacement lemmas, towards claim C5 -/

/-- Replacing a pattern by itself changes nothing (fuel-free wrapper). -/
theorem strReplace_self (s pat : Str) : strReplace s pat pat = s :=
  strReplace_self_pat s.length s pat le_rfl

/-- Version of `strReplace_skip` whose side conditions are decidable for
concrete blocks: the skipped block avoids the first pattern character. -/
theorem strReplace_skip_take (pat a b rep : Str) (hpat : pat ≠ [])
    (ha : ∀ c ∈ a, c ∉ pat.take 1) :
    strReplace (a ++ b) pat rep = a ++ strReplace b pat rep := by
  cases pat with
  | nil => exact absurd rfl hpat
  | cons p0 pt =>
    refine strReplace_skip a b rep (fun c hc heq => ha c hc ?_)
    simp [heq]

/-- A pattern of the shape `{·…` with second character other than `s`
walks over a literal `{s}` block. -/
theorem strReplace_skip_sToken (b rep : Str) (p1 : Char) (pt : Str)
    (hne : p1 ≠ 's') :
    strReplace (("{s}".toList) ++ b) ('{' :: p1 :: pt) rep =
      ("{s}".toList) ++ strReplace b ('{' :: p1 :: pt) rep := by
  have e : ("{s}".toList) ++ b = '{' :: 's' :: '}' :: b := rfl
  rw [e]
  rw [strReplace_cons_else _ _ _ ?h1]
  rw [strReplace_cons_else _ _ _ ?h2]
  rw [strReplace_cons_else _ _ _ ?h3]
  · rfl
  case h1 =>
    rintro ⟨-, hpre⟩
    rw [ List.isPrefixOf_iff_prefix, List.cons_prefix_cons] at hpre
    obtain ⟨-, hpre⟩ := hpre
    rcases hpre with ⟨t, ht⟩
    rw [List.cons_append] at ht
    exact hne (List.head_eq_of_cons_eq ht)
  case h2 =>
    rintro ⟨-, hpre⟩
    rw [ List.isPrefixOf_iff_prefix, List.cons_prefix_cons] at hpre
    exact absurd hpre.1 (by decide)
  case h3 =>
    rintro ⟨-, hpre⟩
    rw [ List.isPrefixOf_iff_prefix, List.cons_prefix_cons] at hpre
    exact absurd hpre.1 (by decide)

/-- A pattern containing `{` has no occurrence in a string without `{`. -/
theorem not_infix_of_no_brace {pat l : Str} (hp : '{' ∈ pat) (hl : '{' ∉ l) :
    ¬ pat <:+: l := fun h => hl (h.subset hp)

/-- Variant of `strReplace_skip_sToken` with decidable side conditions on
the pattern. -/
theorem strReplace_skip_sTok (b rep pat : Str) (hlen : 2 ≤ pat.length)
    (h2 : pat.take 2 ≠ ("\x7bs".toList)) (hhead : pat.take 1 = ("\x7b".toList)) :
    strReplace (("{s}".toList) ++ b) pat rep =
      ("{s}".toList) ++ strReplace b pat rep := by
  match pat, hlen with
  | p0 :: p1 :: pt, _ =>
    have hp0 : p0 = '{' := by
      simpa [List.take] using hhead
    subst hp0
    refine strReplace_skip_sToken b rep p1 pt ?_
    intro hp1
    subst hp1
    exact h2 rfl

/-- First substitution pass of `build_tile_url_from_template` on the OSM
template: `{z}` is replaced, everything else is kept. -/
theorem osm_replace_z (Zs : Str) :
    strReplace osmMapnik.urlTemplate ("{z}".toList) Zs =
      ("https://".toList) ++ (("{s}".toList) ++ ((".tile.openstreetmap.org/".toList) ++
        (Zs ++ ("/{x}/{y}.png".toList)))) := by
  have hT : osmMapnik.urlTemplate =
      ("https://".toList) ++ (("{s}".toList) ++ ((".tile.openstreetmap.org/".toList) ++
        (("{z}".toList) ++ ("/{x}/{y}.png".toList)))) := by decide
  rw [hT]
  rw [strReplace_skip_take _ _ _ _ (by decide) (by decide)]
  rw [strReplace_skip_sTok _ _ _ (by decide) (by decide) (by decide)]
  rw [strReplace_skip_take _ _ _ _ (by decide) (by decide)]
  rw [strReplace_match _ _ _ (by decide)]
  rw [@strReplace_of_no_occurrence ("{z}".toList) ("/{x}/{y}.png".toList) Zs (by decide)]

/-- Second substitution pass: `{x}` is replaced; the already substituted
`z`-string is walked over provided it has no `{`. -/
theorem osm_replace_x (Zs Xs : Str) (hz : '{' ∉ Zs) :
    strReplace (("https://".toList) ++ (("{s}".toList) ++
        ((".tile.openstreetmap.org/".toList) ++ (Zs ++ ("/{x}/{y}.png".toList)))))
      ("{x}".toList) Xs =
      ("https://".toList) ++ (("{s}".toList) ++ ((".tile.openstreetmap.org/".toList) ++
        (Zs ++ (("/".toList) ++ (Xs ++ ("/{y}.png".toList)))))) := by
  have e1 : ("/{x}/{y}.png".toList) =
      ("/".toList) ++ (("{x}".toList) ++ ("/{y}.png".toList)) := by decide
  rw [e1]
  rw [strReplace_skip_take _ _ _ _ (by decide) (by decide)]
  rw [strReplace_skip_sTok _ _ _ (by decide) (by decide) (by decide)]
  rw [strReplace_skip_take _ _ _ _ (by decide) (by decide)]
  rw [strReplace_skip_take ("{x}".toList) Zs _ _ (by decide)
    (fun c hc => by
      simp only [List.take]
      simp only [List.mem_singleton]
      intro hcc
      exact hz (hcc ▸ hc))]
  rw [strReplace_skip_take _ _ _ _ (by decide) (by decide)]
  rw [strReplace_match _ _ _ (by decide)]
  rw [@strReplace_of_no_occurrence ("{x}".toList) ("/{y}.png".toList) Xs (by decide)]

/-- Third substitution pass: `{y}` is replaced. -/
theorem osm_replace_y (Zs Xs Ys : Str) (hz : '{' ∉ Zs) (hx : '{' ∉ Xs) :
    strReplace (("https://".toList) ++ (("{s}".toList) ++
        ((".tile.openstreetmap.org/".toList) ++
          (Zs ++ (("/".toList) ++ (Xs ++ ("/{y}.png".toList)))))))
      ("{y}".toList) Ys =
      ("https://".toList) ++ (("{s}".toList) ++ ((".tile.openstreetmap.org/".toList) ++
        (Zs ++ (("/".toList) ++ (Xs ++ (("/".toList) ++ (Ys ++ (".png".toList)))))))) := by
  have e1 : ("/{y}.png".toList) =
      ("/".toList) ++ (("{y}".toList) ++ (".png".toList)) := by decide
  rw [e1]
  rw [strReplace_skip_take _ _ _ _ (by decide) (by decide)]
  rw [strReplace_skip_sTok _ _ _ (by decide) (by decide) (by decide)]
  rw [strReplace_skip_take _ _ _ _ (by decide) (by decide)]
  rw [strReplace_skip_take ("{y}".toList) Zs _ _ (by decide)
    (fun c hc => by
      simp only [List.take, List.mem_singleton]
      intro hcc
      exact hz (hcc ▸ hc))]
  rw [strReplace_skip_take _ _ _ _ (by decide) (by decide)]
  rw [strReplace_skip_take ("{y}".toList) Xs _ _ (by decide)
    (fun c hc => by
      simp only [List.take, List.mem_singleton]
      intro hcc
      exact hx (hcc ▸ hc))]
  rw [strReplace_skip_take _ _ _ _ (by decide) (by decide)]
  rw [strReplace_match _ _ _ (by decide)]
  rw [@strReplace_of_no_occurrence ("{y}".toList) (".png".toList) Ys (by decide)]

/-- Last pass: the `{s}` token is replaced by the subdomain, and occurs
nowhere else when the substituted strings have no `{`. -/
theorem osm_replace_s (Zs Xs Ys sd : Str) (hz : '{' ∉ Zs) (hx : '{' ∉ Xs)
    (hy : '{' ∉ Ys) :
    strReplace (("https://".toList) ++ (("{s}".toList) ++
        ((".tile.openstreetmap.org/".toList) ++
          (Zs ++ (("/".toList) ++ (Xs ++ (("/".toList) ++ (Ys ++ (".png".toList)))))))))
      ("{s}".toList) sd =
      ("https://".toList) ++ (sd ++ ((".tile.openstreetmap.org/".toList) ++
        (Zs ++ (("/".toList) ++ (Xs ++ (("/".toList) ++ (Ys ++ (".png".toList)))))))) := by
  rw [strReplace_skip_take _ _ _ _ (by decide) (by decide)]
  rw [strReplace_match _ _ _ (by decide)]
  rw [@strReplace_of_no_occurrence ("{s}".toList) _ sd ?notin]
  case notin =>
    refine not_infix_of_no_brace (by decide) ?_
    simp only [List.mem_append]
    rintro (h | h | h | h | h | h | h)
    · revert h; decide
    · exact hz h
    · revert h; decide
    · exact hx h
    · revert h; decide
    · exact hy h
    · revert h; decide

/-- Resolution of the style url: the placeholders are substituted by
themselves and only `{s}` is resolved, to `"a"`. -/
theorem style_url_eval :
    build_tile_url_from_template osmMapnik.urlTemplate ("{z}".toList) ("{x}".toList)
      ("{y}".toList) (some ("a".toList)) =
      ("https://".toList) ++ (("a".toList) ++
        (".tile.openstreetmap.org/{z}/{x}/{y}.png".toList)) := by
  simp only [build_tile_url_from_template, strReplace_self]
  rw [if_pos (by decide : containsSub osmMapnik.urlTemplate ("{s}".toList) = true)]
  have hT : osmMapnik.urlTemplate = ("https://".toList) ++ (("{s}".toList) ++
      (".tile.openstreetmap.org/{z}/{x}/{y}.png".toList)) := by decide
  rw [hT, Option.getD_some]
  rw [strReplace_skip_take _ _ _ _ (by decide) (by decide)]
  rw [strReplace_match _ _ _ (by decide)]
  rw [@strReplace_of_no_occurrence ("{s}".toList)
    (".tile.openstreetmap.org/{z}/{x}/{y}.png".toList) ("a".toList) (by decide)]

/-- Substitution of a concrete `z`-string into the resolved style url. -/
theorem sty_replace_z (Zs : Str) :
    strReplace (("https://a.tile.openstreetmap.org/".toList) ++ (("{z}".toList) ++
        ("/{x}/{y}.png".toList))) ("{z}".toList) Zs =
      ("https://a.tile.openstreetmap.org/".toList) ++ (Zs ++ ("/{x}/{y}.png".toList)) := by
  rw [strReplace_skip_take _ _ _ _ (by decide) (by decide)]
  rw [strReplace_match _ _ _ (by decide)]
  rw [@strReplace_of_no_occurrence ("{z}".toList) ("/{x}/{y}.png".toList) Zs (by decide)]

/-- Substitution of a concrete `x`-string into the resolved style url. -/
theorem sty_replace_x (Zs Xs : Str) (hz : '{' ∉ Zs) :
    strReplace (("https://a.tile.openstreetmap.org/".toList) ++ (Zs ++
        ("/{x}/{y}.png".toList))) ("{x}".toList) Xs =
      ("https://a.tile.openstreetmap.org/".toList) ++ (Zs ++ (("/".toList) ++
        (Xs ++ ("/{y}.png".toList)))) := by
  have e1 : ("/{x}/{y}.png".toList) =
      ("/".toList) ++ (("{x}".toList) ++ ("/{y}.png".toList)) := by decide
  rw [e1]
  rw [strReplace_skip_take _ _ _ _ (by decide) (by decide)]
  rw [strReplace_skip_take ("{x}".toList) Zs _ _ (by decide)
    (fun c hc => by
      simp only [List.take, List.mem_singleton]
      intro hcc
      exact hz (hcc ▸ hc))]
  rw [strReplace_skip_take _ _ _ _ (by decide) (by decide)]
  rw [strReplace_match _ _ _ (by decide)]
  rw [@strReplace_of_no_occurrence ("{x}".toList) ("/{y}.png".toList) Xs (by decide)]

/-- Substitution of a concrete `y`-string into the resolved style url. -/
theorem sty_replace_y (Zs Xs Ys : Str) (hz : '{' ∉ Zs) (hx : '{' ∉ Xs) :
    strReplace (("https://a.tile.openstreetmap.org/".toList) ++ (Zs ++ (("/".toList) ++
        (Xs ++ ("/{y}.png".toList))))) ("{y}".toList) Ys =
      ("https://a.tile.openstreetmap.org/".toList) ++ (Zs ++ (("/".toList) ++
        (Xs ++ (("/".toList) ++ (Ys ++ (".png".toList)))))) := by
  have e1 : ("/{y}.png".toList) =
      ("/".toList) ++ (("{y}".toList) ++ (".png".toList)) := by decide
  rw [e1]
  rw [strReplace_skip_take _ _ _ _ (by decide) (by decide)]
  rw [strReplace_skip_take ("{y}".toList) Zs _ _ (by decide)
    (fun c hc => by
      simp only [List.take, List.mem_singleton]
      intro hcc
      exact hz (hcc ▸ hc))]
  rw [strReplace_skip_take _ _ _ _ (by decide) (by decide)]
  rw [strReplace_skip_take ("{y}".toList) Xs _ _ (by decide)
    (fun c hc => by
      simp only [List.take, List.mem_singleton]
      intro hcc
      exact hx (hcc ▸ hc))]
  rw [strReplace_skip_take _ _ _ _ (by decide) (by decide)]
  rw [strReplace_match _ _ _ (by decide)]
  rw [@strReplace_of_no_occurrence ("{y}".toList) (".png".toList) Ys (by decide)]

/-- Resolution of a provider url for concrete `z`/`x`/`y` strings without
braces and subdomain `"a"`. -/
theorem provider_url_eval (Zs Xs Ys : Str) (hz : '{' ∉ Zs) (hx : '{' ∉ Xs)
    (hy : '{' ∉ Ys) :
    build_tile_url_from_template osmMapnik.urlTemplate Zs Xs Ys (some ("a".toList)) =
      ("https://".toList) ++ (("a".toList) ++ ((".tile.openstreetmap.org/".toList) ++
        (Zs ++ (("/".toList) ++ (Xs ++ (("/".toList) ++ (Ys ++ (".png".toList)))))))) := by
  simp only [build_tile_url_from_template]
  rw [osm_replace_z Zs, osm_replace_x Zs Xs hz, osm_replace_y Zs Xs Ys hz hx]
  rw [if_pos ?hc]
  · rw [Option.getD_some]
    exact osm_replace_s Zs Xs Ys ("a".toList) hz hx hy
  case hc =>
    rw [containsSub_iff]
    exact ⟨("https://".toList),
      (".tile.openstreetmap.org/".toList) ++
        (Zs ++ (("/".toList) ++ (Xs ++ (("/".toList) ++ (Ys ++ (".png".toList)))))),
      by simp [List.append_assoc]⟩

/-! ### Theorem about getMapLibreStyle and getProviderTileUrl (claim C5) -/

/-- C5: for every provider of the catalog and every tile coordinate,
substituting the decimal strings of `z`, `x`, `y` for the `{z}`, `{x}`,
`{y}` placeholders in the single tile URL of the style document equals the
`url` field produced by `getProviderTileUrl` for the same provider and
coordinate with subdomain `"a"`.  The brace-freeness hypotheses hold for
every decimal integer string. -/
theorem getMapLibreStyle_roundtrip (provider : Str) (info : ProviderInfo)
    (hp : (provider, info) ∈ TILE_PROVIDERS) (z x y : ℤ) (cLat cLon zm : ℚ)
    (hz : '{' ∉ intStr z) (hx : '{' ∉ intStr x) (hy : '{' ∉ intStr y) :
    ∃ (st : MapLibreStyle) (tp : TilePayload) (u : Str),
      getMapLibreStyle provider cLat cLon zm = .ok st ∧
      getProviderTileUrl provider z x y (some ("a".toList)) = .ok tp ∧
      st.tiles = [u] ∧
      strReplace (strReplace (strReplace u ("{z}".toList) (intStr z)) ("{x}".toList)
        (intStr x)) ("{y}".toList) (intStr y) = tp.url := by
  have hp' : provider = ("OpenStreetMap.Mapnik".toList) ∧ info = osmMapnik := by
    simpa [TILE_PROVIDERS, Prod.ext_iff] using hp
  obtain ⟨rfl, -⟩ := hp'
  have hinfo : get_provider_info ("OpenStreetMap.Mapnik".toList) = .ok osmMapnik := rfl
  refine ⟨⟨8, ("OpenStreetMap.Mapnik".toList) ++ (" basemap".toList),
      [("https://".toList) ++ (("a".toList) ++
        (".tile.openstreetmap.org/{z}/{x}/{y}.png".toList))],
      256, osmMapnik.attribution, cLon, cLat, zm⟩,
    ⟨("OpenStreetMap.Mapnik".toList), z, x, y,
      ("https://".toList) ++ (("a".toList) ++ ((".tile.openstreetmap.org/".toList) ++
        ((intStr z) ++ (("/".toList) ++ ((intStr x) ++ (("/".toList) ++
          ((intStr y) ++ (".png".toList)))))))),
      osmMapnik.attribution, osmMapnik.description⟩,
    ("https://".toList) ++ (("a".toList) ++
      (".tile.openstreetmap.org/{z}/{x}/{y}.png".toList)),
    ?_, ?_, rfl, ?_⟩
  · simp only [getMapLibreStyle, hinfo]
    rw [style_url_eval]
  · simp only [getProviderTileUrl, hinfo]
    rw [provider_url_eval (intStr z) (intStr x) (intStr y) hz hx hy]
  · have hu : ("https://".toList) ++ (("a".toList) ++
        (".tile.openstreetmap.org/{z}/{x}/{y}.png".toList)) =
        ("https://a.tile.openstreetmap.org/".toList) ++ (("{z}".toList) ++
          ("/{x}/{y}.png".toList)) := by decide
    rw [hu, sty_replace_z (intStr z), sty_replace_x (intStr z) (intStr x) hz,
      sty_replace_y (intStr z) (intStr x) (intStr y) hz hx]
    rw [show ("https://a.tile.openstreetmap.org/".toList) =
        ("https://".toList) ++ (("a".toList) ++ (".tile.openstreetmap.org/".toList))
      from by decide]
    simp [List.append_assoc]

/-- Witness for C5 at the catalog provider and tile (14, 9806, 6550). -/
theorem getMapLibreStyle_roundtrip_witness :
    ∃ (st : MapLibreStyle) (tp : TilePayload) (u : Str),
      getMapLibreStyle ("OpenStreetMap.Mapnik".toList) 33.895 35.478 14 = .ok st ∧
      getProviderTileUrl ("OpenStreetMap.Mapnik".toList) 14 9806 6550
        (some ("a".toList)) = .ok tp ∧
      st.tiles = [u] ∧
      strReplace (strReplace (strReplace u ("{z}".toList) (intStr 14)) ("{x}".toList)
        (intStr 9806)) ("{y}".toList) (intStr 6550) = tp.url :=
  getMapLibreStyle_roundtrip ("OpenStreetMap.Mapnik".toList) osmMapnik (by decide)
    14 9806 6550 33.895 35.478 14 (by decide) (by decide) (by decide)

/-! ### tile_catalog_server: lat_lon_to_tile_indices

The slippy-map formula is modelled over the reals (the IEEE doubles of the
source are abstracted as exact reals): `math.radians`, `math.tan`,
`math.cos`, `math.log` become their real counterparts and Python `int(…)`
becomes truncation toward zero. -/

/-- Python `int(...)` applied to a real value: truncation toward zero. -/
noncomputable def truncInt (r : ℝ) : ℤ := if r < 0 then ⌈r⌉ else ⌊r⌋

/-- Real-number embedding of `lat_lon_to_tile_indices`. -/
noncomputable def lat_lon_to_tile_indices (lat_deg lon_deg : ℝ) (zoom : ℕ) : ℤ × ℤ :=
  let lat_rad := lat_deg * Real.pi / 180
  let n : ℝ := 2 ^ zoom
  let x_tile := n * ((lon_deg + 180) / 360)
  let y_tile := n * (1 - Real.log (Real.tan lat_rad + 1 / Real.cos lat_rad) / Real.pi) / 2
  (truncInt x_tile, truncInt y_tile)

theorem truncInt_of_nonneg {r : ℝ} (h : 0 ≤ r) : truncInt r = ⌊r⌋ := by
  rw [truncInt, if_neg (not_lt.mpr h)]

/-- C1, counterexample: at `lon = 180` (which the claim allows) the
`x`-index is `2 ^ zoom` itself, violating `x < 2 ^ zoom`; here at
`lat = 0`, `lon = 180`, `zoom = 0` the formula gives `x = 1 = 2 ^ 0`.
The arithmetic of the `x` component is exact, so the float code agrees. -/
theorem lat_lon_to_tile_indices_out_of_range_at_lon180 :
    ((-90:ℝ) ≤ 0 ∧ (0:ℝ) ≤ 90 ∧ (-180:ℝ) ≤ 180 ∧ (180:ℝ) ≤ 180) ∧
    ¬ ((lat_lon_to_tile_indices 0 180 0).1 < 2 ^ (0:ℕ)) := by
  refine ⟨by norm_num, ?_⟩
  have hx : (lat_lon_to_tile_indices 0 180 0).1 = 1 := by
    simp only [lat_lon_to_tile_indices]
    norm_num [truncInt_of_nonneg]
  rw [hx]
  norm_num

/-- C1, amended: for every `zoom ≥ 0`, `lon ∈ [-180, 180)` and latitude
strictly inside the Web-Mercator band (positive cosine and
`|tan| < sinh π` in radians, i.e. `|lat|` below ≈ 85.0511°), both tile
indices satisfy `0 ≤ i < 2 ^ zoom`. -/
theorem lat_lon_to_tile_indices_in_range (lat lon : ℝ) (zoom : ℕ)
    (hlon1 : -180 ≤ lon) (hlon2 : lon < 180)
    (hcos : 0 < Real.cos (lat * Real.pi / 180))
    (htan : |Real.tan (lat * Real.pi / 180)| < Real.sinh Real.pi) :
    0 ≤ (lat_lon_to_tile_indices lat lon zoom).1 ∧
    (lat_lon_to_tile_indices lat lon zoom).1 < 2 ^ zoom ∧
    0 ≤ (lat_lon_to_tile_indices lat lon zoom).2 ∧
    (lat_lon_to_tile_indices lat lon zoom).2 < 2 ^ zoom := by
  have hπ : (0:ℝ) < Real.pi := Real.pi_pos
  have hn : (0:ℝ) < 2 ^ zoom := by positivity
  obtain ⟨ht1, ht2⟩ := abs_lt.mp htan
  -- the logarithm term is the inverse hyperbolic sine of the tangent
  have hsec : Real.sqrt (1 + Real.tan (lat * Real.pi / 180) ^ 2) =
      1 / Real.cos (lat * Real.pi / 180) := by
    have h1 : 1 + Real.tan (lat * Real.pi / 180) ^ 2 =
        (1 / Real.cos (lat * Real.pi / 180)) ^ 2 := by
      rw [Real.tan_eq_sin_div_cos]
      have hc : Real.cos (lat * Real.pi / 180) ≠ 0 := ne_of_gt hcos
      field_simp
    rw [h1, Real.sqrt_sq (by positivity)]
  have hL : Real.log (Real.tan (lat * Real.pi / 180) +
      1 / Real.cos (lat * Real.pi / 180)) =
      Real.arsinh (Real.tan (lat * Real.pi / 180)) := by
    rw [show Real.arsinh (Real.tan (lat * Real.pi / 180)) =
        Real.log (Real.tan (lat * Real.pi / 180) +
          Real.sqrt (1 + Real.tan (lat * Real.pi / 180) ^ 2)) from rfl, hsec]
  have hA1 : Real.arsinh (Real.tan (lat * Real.pi / 180)) < Real.pi := by
    have := Real.arsinh_lt_arsinh.mpr ht2
    rwa [Real.arsinh_sinh] at this
  have hA2 : -Real.pi < Real.arsinh (Real.tan (lat * Real.pi / 180)) := by
    have h1 : Real.arsinh (-Real.sinh Real.pi) <
        Real.arsinh (Real.tan (lat * Real.pi / 180)) :=
      Real.arsinh_lt_arsinh.mpr ht1
    rwa [← Real.sinh_neg, Real.arsinh_sinh] at h1
  -- x bounds
  have hx0 : (0:ℝ) ≤ 2 ^ zoom * ((lon + 180) / 360) := by
    have : (0:ℝ) ≤ lon + 180 := by linarith
    positivity
  have hx1 : 2 ^ zoom * ((lon + 180) / 360) < 2 ^ zoom := by
    have h1 : (lon + 180) / 360 < 1 := by
      rw [div_lt_one (by norm_num : (0:ℝ) < 360)]
      linarith
    exact mul_lt_of_lt_one_right hn h1
  -- y bounds
  have hy0 : (0:ℝ) < 2 ^ zoom * (1 - Real.log (Real.tan (lat * Real.pi / 180) +
      1 / Real.cos (lat * Real.pi / 180)) / Real.pi) / 2 := by
    rw [hL]
    have h1 : Real.arsinh (Real.tan (lat * Real.pi / 180)) / Real.pi < 1 := by
      rw [div_lt_one hπ]
      exact hA1
    have h2 : (0:ℝ) < 1 - Real.arsinh (Real.tan (lat * Real.pi / 180)) / Real.pi := by
      linarith
    positivity
  have hy1 : 2 ^ zoom * (1 - Real.log (Real.tan (lat * Real.pi / 180) +
      1 / Real.cos (lat * Real.pi / 180)) / Real.pi) / 2 < 2 ^ zoom := by
    rw [hL]
    have h1 : -1 < Real.arsinh (Real.tan (lat * Real.pi / 180)) / Real.pi := by
      rw [lt_div_iff₀ hπ]
      linarith
    rw [div_lt_iff₀ (by norm_num : (0:ℝ) < 2)]
    nlinarith
  -- assemble
  simp only [lat_lon_to_tile_indices]
  refine ⟨?_, ?_, ?_, ?_⟩
  · rw [truncInt_of_nonneg hx0]
    exact Int.floor_nonneg.mpr hx0
  · rw [truncInt_of_nonneg hx0, Int.floor_lt]
    push_cast
    exact hx1
  · rw [truncInt_of_nonneg hy0.le]
    exact Int.floor_nonneg.mpr hy0.le
  · rw [truncInt_of_nonneg hy0.le, Int.floor_lt]
    push_cast
    exact hy1

/-- Witness for the amended C1 at the equator point and zoom 0. -/
theorem lat_lon_to_tile_indices_in_range_witness :
    0 ≤ (lat_lon_to_tile_indices 0 0 0).1 ∧
    (lat_lon_to_tile_indices 0 0 0).1 < 2 ^ (0:ℕ) ∧
    0 ≤ (lat_lon_to_tile_indices 0 0 0).2 ∧
    (lat_lon_to_tile_indices 0 0 0).2 < 2 ^ (0:ℕ) :=
  lat_lon_to_tile_indices_in_range 0 0 0 (by norm_num) (by norm_num)
    (by norm_num)
    (by
      rw [show (0:ℝ) * Real.pi / 180 = 0 by ring, Real.tan_zero, abs_zero]
      exact Real.sinh_pos_iff.mpr Real.pi_pos)

/-! ### Numeric bounds for the tile indices of (33.895, 35.478) at zoom 14

The `y` index needs rigorous bounds for
`log (tan r + 1 / cos r)` at `r = 33.895 * pi / 180`.  `sin` and `cos` are
first bounded at `r / 32` by the cubic Taylor polynomial, the bounds are
propagated through five angle doublings, and the logarithm is compared
with explicit exponential Taylor sums. -/

/-- Interval propagation of `sin`/`cos` bounds through one angle
doubling. -/
theorem sin_cos_double {θ a b c d : ℝ} (hs1 : a ≤ Real.sin θ) (hs2 : Real.sin θ ≤ b)
    (hc1 : c ≤ Real.cos θ) (hc2 : Real.cos θ ≤ d) (ha : 0 ≤ a) (hc : 0 ≤ c) :
    (2*a*c ≤ Real.sin (2*θ) ∧ Real.sin (2*θ) ≤ 2*b*d) ∧
    (1 - 2*b^2 ≤ Real.cos (2*θ) ∧ Real.cos (2*θ) ≤ 1 - 2*a^2) := by
  have hsθ : 0 ≤ Real.sin θ := le_trans ha hs1
  have hcθ : 0 ≤ Real.cos θ := le_trans hc hc1
  have hmul1 : a*c ≤ Real.sin θ * Real.cos θ := mul_le_mul hs1 hc1 hc hsθ
  have hmul2 : Real.sin θ * Real.cos θ ≤ b*d := mul_le_mul hs2 hc2 hcθ (le_trans hsθ hs2)
  have hsq1 : a^2 ≤ Real.sin θ^2 := pow_le_pow_left₀ ha hs1 2
  have hsq2 : Real.sin θ^2 ≤ b^2 := pow_le_pow_left₀ hsθ hs2 2
  have hcos2 : Real.cos (2*θ) = 1 - 2*Real.sin θ^2 := by
    have hpyth := Real.sin_sq_add_cos_sq θ
    rw [Real.cos_two_mul]
    nlinarith
  rw [Real.sin_two_mul, hcos2]
  refine ⟨⟨by nlinarith, by nlinarith⟩, by nlinarith, by nlinarith⟩

/-- Taylor bounds for `sin` and `cos` at the 32nd part of the Beirut
latitude in radians. -/
theorem mercStage0 :
    ((0.018485791733523:ℝ) ≤ Real.sin (33.895 * Real.pi / 5760) ∧
      Real.sin (33.895 * Real.pi / 5760) ≤ 0.018485809786011) ∧
    ((0.99982911198075:ℝ) ≤ Real.cos (33.895 * Real.pi / 5760) ∧
      Real.cos (33.895 * Real.pi / 5760) ≤ 0.99982912425648) := by
  have hpi1 := Real.pi_gt_d6
  have hpi2 := Real.pi_lt_d6
  have hs1 : (0.018486850840277:ℝ) ≤ 33.895 * Real.pi / 5760 := by nlinarith
  have hs2 : 33.895 * Real.pi / 5760 ≤ (0.018486856724827:ℝ) := by nlinarith
  have hs0 : (0:ℝ) < 33.895 * Real.pi / 5760 := lt_of_lt_of_le (by norm_num) hs1
  have habs : |33.895 * Real.pi / 5760| ≤ 1 := by
    rw [abs_of_pos hs0]
    linarith
  have hsin := Real.sin_bound habs
  have hcos := Real.cos_bound habs
  rw [abs_of_pos hs0, abs_le] at hsin hcos
  obtain ⟨hsin1, hsin2⟩ := hsin
  obtain ⟨hcos1, hcos2⟩ := hcos
  have h3u : (33.895 * Real.pi / 5760)^3 ≤ (0.018486856724827:ℝ)^3 :=
    pow_le_pow_left₀ hs0.le hs2 3
  have h3l : (0.018486850840277:ℝ)^3 ≤ (33.895 * Real.pi / 5760)^3 :=
    pow_le_pow_left₀ (by norm_num) hs1 3
  have h4u : (33.895 * Real.pi / 5760)^4 ≤ (0.018486856724827:ℝ)^4 :=
    pow_le_pow_left₀ hs0.le hs2 4
  have h2u : (33.895 * Real.pi / 5760)^2 ≤ (0.018486856724827:ℝ)^2 :=
    pow_le_pow_left₀ hs0.le hs2 2
  have h2l : (0.018486850840277:ℝ)^2 ≤ (33.895 * Real.pi / 5760)^2 :=
    pow_le_pow_left₀ (by norm_num) hs1 2
  refine ⟨⟨?_, ?_⟩, ?_, ?_⟩
  · have hnum : (0.018485791733523:ℝ) ≤
        0.018486850840277 - 0.018486856724827^3/6 - 0.018486856724827^4*(5/96) := by
      norm_num
    linarith
  · have hnum : (0.018486856724827:ℝ) - 0.018486850840277^3/6 +
        0.018486856724827^4*(5/96) ≤ 0.018485809786011 := by
      norm_num
    linarith
  · have hnum : (0.99982911198075:ℝ) ≤
        1 - 0.018486856724827^2/2 - 0.018486856724827^4*(5/96) := by
      norm_num
    linarith
  · have hnum : (1:ℝ) - 0.018486850840277^2/2 + 0.018486856724827^4*(5/96) ≤
        0.99982912425648 := by
      norm_num
    linarith

/-- Doubling stage 1: bounds at `33.895 * pi / 2880`. -/
theorem mercStage1 :
    ((0.036965265466378:ℝ) ≤ Real.sin (33.895 * Real.pi / 2880) ∧
      Real.sin (33.895 * Real.pi / 2880) ≤ 0.036965302019039) ∧
    ((0.99931654967311:ℝ) ≤ Real.cos (33.895 * Real.pi / 2880) ∧
      Real.cos (33.895 * Real.pi / 2880) ≤ 0.99931655100797) := by
  have e : 33.895 * Real.pi / 2880 = 2 * (33.895 * Real.pi / 5760) := by ring
  obtain ⟨⟨hs1, hs2⟩, hc1, hc2⟩ := mercStage0
  obtain ⟨⟨A1, A2⟩, B1, B2⟩ :=
    sin_cos_double hs1 hs2 hc1 hc2 (by norm_num) (by norm_num)
  rw [e]
  refine ⟨⟨le_trans (by norm_num) A1, le_trans A2 (by norm_num)⟩,
    le_trans (by norm_num) B1, le_trans B2 (by norm_num)⟩

/-- Doubling stage 2: bounds at `33.895 * pi / 1440`. -/
theorem mercStage2 :
    ((0.073880003087222:ℝ) ≤ Real.sin (33.895 * Real.pi / 1440) ∧
      Real.sin (33.895 * Real.pi / 1440) ≤ 0.073880076241269) ∧
    ((0.99726713289328:ℝ) ≤ Real.cos (33.895 * Real.pi / 1440) ∧
      Real.cos (33.895 * Real.pi / 1440) ≤ 0.99726713829801) := by
  have e : 33.895 * Real.pi / 1440 = 2 * (33.895 * Real.pi / 2880) := by ring
  obtain ⟨⟨hs1, hs2⟩, hc1, hc2⟩ := mercStage1
  obtain ⟨⟨A1, A2⟩, B1, B2⟩ :=
    sin_cos_double hs1 hs2 hc1 hc2 (by norm_num) (by norm_num)
  rw [e]
  refine ⟨⟨le_trans (by norm_num) A1, le_trans A2 (by norm_num)⟩,
    le_trans (by norm_num) B1, le_trans B2 (by norm_num)⟩

/-- Doubling stage 3: bounds at `33.895 * pi / 720`. -/
theorem mercStage3 :
    ((0.14735619771388:ℝ) ≤ Real.sin (33.895 * Real.pi / 720) ∧
      Real.sin (33.895 * Real.pi / 720) ≤ 0.14735634442074) ∧
    ((0.98908346866916:ℝ) ≤ Real.cos (33.895 * Real.pi / 720) ∧
      Real.cos (33.895 * Real.pi / 720) ≤ 0.98908349028767) := by
  have e : 33.895 * Real.pi / 720 = 2 * (33.895 * Real.pi / 1440) := by ring
  obtain ⟨⟨hs1, hs2⟩, hc1, hc2⟩ := mercStage2
  obtain ⟨⟨A1, A2⟩, B1, B2⟩ :=
    sin_cos_double hs1 hs2 hc1 hc2 (by norm_num) (by norm_num)
  rw [e]
  refine ⟨⟨le_trans (by norm_num) A1, le_trans A2 (by norm_num)⟩,
    le_trans (by norm_num) B1, le_trans B2 (by norm_num)⟩

/-- Doubling stage 4: bounds at `33.895 * pi / 360`. -/
theorem mercStage4 :
    ((0.29149515832948:ℝ) ≤ Real.sin (33.895 * Real.pi / 360) ∧
      Real.sin (33.895 * Real.pi / 360) ≤ 0.2914954549114) ∧
    ((0.95657221551791:ℝ) ≤ Real.cos (33.895 * Real.pi / 360) ∧
      Real.cos (33.895 * Real.pi / 360) ≤ 0.95657230199062) := by
  have e : 33.895 * Real.pi / 360 = 2 * (33.895 * Real.pi / 720) := by ring
  obtain ⟨⟨hs1, hs2⟩, hc1, hc2⟩ := mercStage3
  obtain ⟨⟨A1, A2⟩, B1, B2⟩ :=
    sin_cos_double hs1 hs2 hc1 hc2 (by norm_num) (by norm_num)
  rw [e]
  refine ⟨⟨le_trans (by norm_num) A1, le_trans A2 (by norm_num)⟩,
    le_trans (by norm_num) B1, le_trans B2 (by norm_num)⟩

/-- Doubling stage 5: bounds at `33.895 * pi / 180`. -/
theorem mercStage5 :
    ((0.55767233883194:ℝ) ≤ Real.sin (33.895 * Real.pi / 180) ∧
      Real.sin (33.895 * Real.pi / 180) ≤ 0.55767295664881) ∧
    ((0.83006079953199:ℝ) ≤ Real.cos (33.895 * Real.pi / 180) ∧
      Real.cos (33.895 * Real.pi / 180) ≤ 0.83006114534095) := by
  have e : 33.895 * Real.pi / 180 = 2 * (33.895 * Real.pi / 360) := by ring
  obtain ⟨⟨hs1, hs2⟩, hc1, hc2⟩ := mercStage4
  obtain ⟨⟨A1, A2⟩, B1, B2⟩ :=
    sin_cos_double hs1 hs2 hc1 hc2 (by norm_num) (by norm_num)
  rw [e]
  refine ⟨⟨le_trans (by norm_num) A1, le_trans A2 (by norm_num)⟩,
    le_trans (by norm_num) B1, le_trans B2 (by norm_num)⟩

/-- Bounds for the argument of the logarithm:
`tan r + 1 / cos r = (1 + sin r) / cos r` at the Beirut latitude. -/
theorem mercV :
    (1.8765754156485:ℝ) ≤ Real.tan (33.895 * Real.pi / 180) +
      1 / Real.cos (33.895 * Real.pi / 180) ∧
    Real.tan (33.895 * Real.pi / 180) + 1 / Real.cos (33.895 * Real.pi / 180) ≤
      (1.8765769417458:ℝ) := by
  obtain ⟨⟨hs1, hs2⟩, hc1, hc2⟩ := mercStage5
  have hcpos : 0 < Real.cos (33.895 * Real.pi / 180) :=
    lt_of_lt_of_le (by norm_num) hc1
  have hv : Real.tan (33.895 * Real.pi / 180) + 1 / Real.cos (33.895 * Real.pi / 180) =
      (1 + Real.sin (33.895 * Real.pi / 180)) / Real.cos (33.895 * Real.pi / 180) := by
    rw [Real.tan_eq_sin_div_cos]
    field_simp
    ring
  rw [hv]
  constructor
  · rw [le_div_iff₀ hcpos]
    have hnum : (1.8765754156485:ℝ) * 0.83006114534095 ≤ 1 + 0.55767233883194 := by
      norm_num
    nlinarith
  · rw [div_le_iff₀ hcpos]
    have hnum : (1:ℝ) + 0.55767295664881 ≤ 1.8765769417458 * 0.83006079953199 := by
      norm_num
    nlinarith

/-- Explicit upper bound of the exponential at the lower log target. -/
theorem exp_ahi_lt : Real.exp 0.62931568762208 < (1.8765754156485:ℝ) := by
  have h := @Real.exp_bound (0.62931568762208:ℝ)
    (by rw [abs_of_nonneg (by norm_num : (0:ℝ) ≤ 0.62931568762208)]; norm_num)
    11 (by norm_num)
  rw [abs_of_nonneg (by norm_num : (0:ℝ) ≤ 0.62931568762208), abs_le] at h
  obtain ⟨-, h2⟩ := h
  have hsum : (∑ m ∈ Finset.range 11, (0.62931568762208:ℝ) ^ m / m.factorial) +
      (0.62931568762208:ℝ) ^ 11 * ((Nat.succ 11) / ((Nat.factorial 11) * 11)) <
      1.8765754156485 := by
    simp only [Finset.sum_range_succ, Finset.sum_range_zero, Nat.factorial, Nat.succ_eq_add_one]
    norm_num
  linarith

/-- Explicit lower bound of the exponential at the upper log target. -/
theorem exp_blo_gt : (1.8765769417458:ℝ) < Real.exp 0.62969898242187 := by
  have h := @Real.exp_bound (0.62969898242187:ℝ)
    (by rw [abs_of_nonneg (by norm_num : (0:ℝ) ≤ 0.62969898242187)]; norm_num)
    11 (by norm_num)
  rw [abs_of_nonneg (by norm_num : (0:ℝ) ≤ 0.62969898242187), abs_le] at h
  obtain ⟨h1, -⟩ := h
  have hsum : (1.8765769417458:ℝ) <
      (∑ m ∈ Finset.range 11, (0.62969898242187:ℝ) ^ m / m.factorial) -
      (0.62969898242187:ℝ) ^ 11 * ((Nat.succ 11) / ((Nat.factorial 11) * 11)) := by
    simp only [Finset.sum_range_succ, Finset.sum_range_zero, Nat.factorial, Nat.succ_eq_add_one]
    norm_num
  linarith

/-- The logarithm term of the Beirut `y` index lies in the half-open
interval that makes the floored index 6550. -/
theorem mercLog :
    1641 * Real.pi / 8192 < Real.log (Real.tan (33.895 * Real.pi / 180) +
      1 / Real.cos (33.895 * Real.pi / 180)) ∧
    Real.log (Real.tan (33.895 * Real.pi / 180) +
      1 / Real.cos (33.895 * Real.pi / 180)) ≤ 1642 * Real.pi / 8192 := by
  obtain ⟨hv1, hv2⟩ := mercV
  have hvpos : 0 < Real.tan (33.895 * Real.pi / 180) +
      1 / Real.cos (33.895 * Real.pi / 180) :=
    lt_of_lt_of_le (by norm_num) hv1
  constructor
  · have h1 : 1641 * Real.pi / 8192 < (0.62931568762208:ℝ) := by
      have := Real.pi_lt_d6
      nlinarith
    refine lt_of_lt_of_le h1 ?_
    rw [Real.le_log_iff_exp_le hvpos]
    exact le_trans exp_ahi_lt.le hv1
  · have h2 : (0.62969898242187:ℝ) ≤ 1642 * Real.pi / 8192 := by
      have := Real.pi_gt_d6
      nlinarith
    refine le_trans ?_ h2
    rw [Real.log_le_iff_le_exp hvpos]
    exact le_trans hv2 exp_blo_gt.le

/-- The `x` index of (33.895, 35.478) at zoom 14: `16384 · 215.478 / 360`
truncates to 9806 (exact rational arithmetic, so the float code agrees). -/
theorem merc_x_beirut : truncInt ((2:ℝ) ^ (14:ℕ) * ((35.478 + 180) / 360)) = 9806 := by
  rw [truncInt_of_nonneg (by norm_num), Int.floor_eq_iff]
  constructor <;> norm_num

/-! ### Theorems about the Beirut tile example (claim C6) -/

/-- C6, counterexample: the spec's expected pair (9541, 6479) is not what
the formula returns — already the `x` index is 9806, by exact rational
arithmetic. -/
theorem lat_lon_to_tile_indices_spec_values_wrong :
    lat_lon_to_tile_indices 33.895 35.478 14 ≠ (9541, 6479) := by
  intro h
  have hx : (lat_lon_to_tile_indices 33.895 35.478 14).1 = 9806 := by
    simp only [lat_lon_to_tile_indices]
    exact merc_x_beirut
  rw [h] at hx
  norm_num at hx

/-- C6, amended: `lat_lon_to_tile_indices (33.895, 35.478, 14)` returns
exactly `(x = 9806, y = 6550)` — the Web-Mercator formula of the source
with floor truncation, evaluated in exact real arithmetic. -/
theorem lat_lon_to_tile_indices_beirut :
    lat_lon_to_tile_indices 33.895 35.478 14 = (9806, 6550) := by
  obtain ⟨hL1, hL2⟩ := mercLog
  have hπ := Real.pi_pos
  have ht1 : (1641:ℝ)/8192 < Real.log (Real.tan (33.895 * Real.pi / 180) +
      1 / Real.cos (33.895 * Real.pi / 180)) / Real.pi := by
    rw [lt_div_iff₀ hπ]
    linarith
  have ht2 : Real.log (Real.tan (33.895 * Real.pi / 180) +
      1 / Real.cos (33.895 * Real.pi / 180)) / Real.pi ≤ (1642:ℝ)/8192 := by
    rw [div_le_iff₀ hπ]
    linarith
  have hy0 : (0:ℝ) ≤ (2:ℝ) ^ (14:ℕ) * (1 - Real.log (Real.tan (33.895 * Real.pi / 180) +
      1 / Real.cos (33.895 * Real.pi / 180)) / Real.pi) / 2 := by
    nlinarith
  have hy : truncInt ((2:ℝ) ^ (14:ℕ) * (1 - Real.log (Real.tan (33.895 * Real.pi / 180) +
      1 / Real.cos (33.895 * Real.pi / 180)) / Real.pi) / 2) = 6550 := by
    rw [truncInt_of_nonneg hy0, Int.floor_eq_iff]
    constructor
    · push_cast
      nlinarith
    · push_cast
      nlinarith
  simp only [lat_lon_to_tile_indices]
  rw [Prod.mk.injEq]
  exact ⟨merc_x_beirut, hy⟩
